import Mathlib

/-!
# set-image-with-configmap

A shallow embedding of `image_transformer.go` and `main.go`.

The Go code is stateful: methods of `*SetImage` update the receiver and the
`*fn.ResourceList`.  Here every method takes the receiver (and the resource list)
as an argument and returns the updated copies.  Calls that can end in a Go panic
(`GetOrDie`, `AsOrDie`, `MustString`) produce an `Outcome`.

The functions of the kpt SDK, of kyaml and of kustomize that the two files call are
not part of the repository.  They are gathered in the record `Env`, and the
definitions below are parameterised by it, so that the theorems hold for every
behaviour of those libraries.  Only `fn.Results.Sort` is given a definition of its
own (`ResultsSort`), following the order written in the specification.
-/

namespace SetImageFn

/-! ## Data model -/

/-- Go `error` values, identified with their message. -/
abbrev Error := String

/-- How a call ends: it returns a value, or it panics. -/
inductive Outcome (α : Type) where
  | returned (a : α)
  | panicked
  deriving DecidableEq, Repr

def fnConfigGroup : String := "fn.kpt.dev"

def fnConfigVersion : String := "v1alpha1"

def fnConfigAPIVersion : String := fnConfigGroup ++ "/" ++ fnConfigVersion

def fnConfigKind : String := "SetImageFromConfigMap"

/-- The rewrite rule (`type SetImageInfo struct`). -/
structure SetImageInfo where
  Name : String := ""
  NewName : String := ""
  NewRegistry : String := ""
  NewTag : String := ""
  deriving DecidableEq, Repr

/-- Name of the config map holding the rule (`type SetImageConfigMap struct`). -/
structure SetImageConfigMap where
  Name : String := ""
  deriving DecidableEq, Repr

/-- The kyaml type `yaml.ResourceIdentifier`: `TypeMeta` and `NameMeta` flattened. -/
structure ResourceIdentifier where
  APIVersion : String := ""
  Kind : String := ""
  Name : String := ""
  Namespace : String := ""
  deriving DecidableEq, Repr

/-- Key of a mutation record (`type setImageResultKey struct`). -/
structure setImageResultKey where
  ResourceRef : ResourceIdentifier
  FilePath : String
  FileIndex : Int
  FieldPath : String
  deriving DecidableEq, Repr

/-- One before/after pair (`type setImageResult struct`). -/
structure setImageResult where
  CurrentValue : String
  UpdatedValue : String
  deriving DecidableEq, Repr

/-- The Go map `map[setImageResultKey][]setImageResult`, listed by its entries.
A Go map holds each key once; the nil map and the empty map are both `[]`. -/
abbrev setImageResults := List (setImageResultKey × List setImageResult)

/-- The Go expression `len(m)`. -/
def mapLen (m : setImageResults) : Nat := m.length

/-- The Go expression `m[k]`: the stored list, or the nil slice when `k` is absent. -/
def mapIndex : setImageResults → setImageResultKey → List setImageResult
  | [], _ => []
  | (k0, v0) :: m, k => if k0 = k then v0 else mapIndex m k

/-- The Go statement `m[k] = v`: replaces the entry of `k`, or adds one. -/
def mapAssign : setImageResults → setImageResultKey → List setImageResult → setImageResults
  | [], k, v => [(k, v)]
  | (k0, v0) :: m, k, v => if k0 = k then (k, v) :: m else (k0, v0) :: mapAssign m k v

/-- Keys of the map. -/
def mapKeys (m : setImageResults) : List setImageResultKey := m.map Prod.fst

/-- The receiver type (`type SetImage struct`). -/
structure SetImage (FieldSpec : Type) where
  ConfigMap : SetImageConfigMap := {}
  SetImageInfo : SetImageInfo := {}
  AdditionalImageFields : List FieldSpec := []
  setImageResults : setImageResults := []

/-- The exported fields of `SetImage`, the ones a decoder can reach. -/
structure SetImageFields (FieldSpec : Type) where
  ConfigMap : SetImageConfigMap
  SetImageInfo : SetImageInfo
  AdditionalImageFields : List FieldSpec

/-- The SDK type `fn.Severity`. -/
inductive Severity where
  | Error
  | Warning
  | Info
  deriving DecidableEq, Repr

/-- The SDK type `fn.Field`. -/
structure Field where
  Path : String
  CurrentValue : String
  ProposedValue : String
  deriving DecidableEq, Repr

/-- The SDK type `fn.File`. -/
structure File where
  Path : String
  Index : Int
  deriving DecidableEq, Repr

/-- The SDK type `fn.Result`, with the fields the program sets; a nil pointer is `none`. -/
structure Result where
  Message : String
  Severity : Severity
  ResourceRef : Option ResourceIdentifier := none
  Field : Option Field := none
  File : Option File := none
  deriving DecidableEq, Repr

/-- The SDK type `fn.ResourceList`. -/
structure ResourceList (KubeObject : Type) where
  FunctionConfig : KubeObject
  Items : List KubeObject
  Results : List Result
  deriving DecidableEq

/-- The kustomize type `types.Image`, with the fields `Transform` fills in. -/
structure Image where
  Name : String
  NewName : String
  NewTag : String
  deriving DecidableEq, Repr

/-- The kustomize type `imagetag.Filter`. -/
structure Filter (FieldSpec : Type) where
  ImageTag : Image
  FsSlice : List FieldSpec

/-- What the tracker callback reads from its `*yaml.RNode` argument:
`node.YNode().Value` and `node.FieldPath()`. -/
structure ScalarNode where
  Value : String
  FieldPath : List String
  deriving DecidableEq, Repr

/-- One invocation `callback(key, value, tag, node)` made by the image filter. -/
structure TrackerCall where
  key : String
  value : String
  tag : String
  node : ScalarNode
  deriving DecidableEq, Repr

/-- One run of `filtersutil.ApplyToJSON(filter, objRN)`: the callback invocations it
made, in order, and then either the error it returned or the rewritten node. -/
structure FilterRun (RNode : Type) where
  calls : List TrackerCall
  result : Except Error RNode

/-- The library functions called by the program. -/
structure Env (KubeObject RNode FieldSpec : Type) where
  /-- The call `o.IsGVK(group, version, kind)`. -/
  IsGVK : KubeObject → String → String → String → Bool
  GetName : KubeObject → String
  GetNamespace : KubeObject → String
  GetKind : KubeObject → String
  GetAPIVersion : KubeObject → String
  /-- The call `o.String()`. -/
  objString : KubeObject → String
  /-- The call `o.GetOrDie(&si.ConfigMap, "data")`, given the current value of
  `si.ConfigMap`; `none` when it panics. -/
  GetOrDieConfigMap : KubeObject → SetImageConfigMap → Option SetImageConfigMap
  /-- The call `o.GetOrDie(&si.SetImageInfo, "data")`, given the current value of
  `si.SetImageInfo`; `none` when it panics. -/
  GetOrDieSetImageInfo : KubeObject → SetImageInfo → Option SetImageInfo
  /-- The call `o.AsOrDie(si)`, given the current exported fields; `none` when it panics. -/
  AsOrDie : KubeObject → SetImageFields FieldSpec → Option (SetImageFields FieldSpec)
  /-- The call `fn.ParseKubeObject([]byte(s))`. -/
  ParseKubeObject : String → Except Error KubeObject
  /-- The call `fn.ErrorConfigObjectResult(err, o)`. -/
  ErrorConfigObjectResult : Error → KubeObject → Result
  /-- The call `yaml.Parse(s)`. -/
  Parse : String → Except Error RNode
  /-- The call `n.MustString()`; `none` when it panics. -/
  MustString : RNode → Option String
  /-- The call `kioutil.GetFileAnnotations(n)`, without the error the program drops. -/
  GetFileAnnotations : RNode → String × String
  /-- The call `strconv.Atoi(s)`, without the error the program drops. -/
  Atoi : String → Int
  /-- The call `filtersutil.ApplyToJSON(filter, n)`. -/
  ApplyToJSON : Filter FieldSpec → RNode → FilterRun RNode
  /-- The value and the error of unmarshalling
  `builtinpluginconsts.GetDefaultFieldSpecsAsMap()["images"]`. -/
  defaultImageFields : List FieldSpec × Option Error

section Program

variable {KubeObject RNode FieldSpec : Type}

/-- The function `getDefaultImageFields`. -/
def getDefaultImageFields (env : Env KubeObject RNode FieldSpec) : List FieldSpec × Option Error :=
  env.defaultImageFields

/-- The method `getSetImageConfig` (lines 115-127): the loop over the items, then `return nil`. -/
def getSetImageConfig (env : Env KubeObject RNode FieldSpec) :
    SetImage FieldSpec → List KubeObject → Outcome (SetImage FieldSpec × Option Error)
  | si, [] => .returned (si, none)
  | si, kubeObject :: items =>
    if env.IsGVK kubeObject "" "v1" "ConfigMap" then
      if si.ConfigMap.Name = env.GetName kubeObject then
        match env.GetOrDieSetImageInfo kubeObject {} with
        | none => .panicked
        | some info => getSetImageConfig env { si with SetImageInfo := info } items
      else getSetImageConfig env si items
    else getSetImageConfig env si items

/-- The error built by `fmt.Errorf` in the default case of `Config`. -/
def configError : Error :=
  "`functionConfig` must be a `ConfigMap` or `" ++ fnConfigKind ++ "`"

/-- Lines 102-111 of `Config`, after the `switch`. -/
def configAfterSwitch (env : Env KubeObject RNode FieldSpec) (si : SetImage FieldSpec)
    (rl : ResourceList KubeObject) : Outcome (SetImage FieldSpec × Option Error × Bool) :=
  match getSetImageConfig env si rl.Items with
  | .panicked => .panicked
  | .returned (si, some err) => .returned (si, some err, false)
  | .returned (si, none) =>
    match getDefaultImageFields env with
    | (_, some err) => .returned (si, some err, false)
    | (defaultImageFields, none) =>
      .returned ({ si with AdditionalImageFields := si.AdditionalImageFields ++ defaultImageFields },
        none, true)

/-- The method `Config` (lines 90-112); returns the receiver, the error and the flag. -/
def Config (env : Env KubeObject RNode FieldSpec) (si : SetImage FieldSpec)
    (rl : ResourceList KubeObject) : Outcome (SetImage FieldSpec × Option Error × Bool) :=
  let si : SetImage FieldSpec := { si with ConfigMap := {} }
  if env.IsGVK rl.FunctionConfig "" "v1" "ConfigMap" then
    match env.GetOrDieConfigMap rl.FunctionConfig si.ConfigMap with
    | none => .panicked
    | some cm => configAfterSwitch env { si with ConfigMap := cm } rl
  else if env.IsGVK rl.FunctionConfig fnConfigGroup fnConfigVersion fnConfigKind then
    match env.AsOrDie rl.FunctionConfig ⟨si.ConfigMap, si.SetImageInfo, si.AdditionalImageFields⟩ with
    | none => .panicked
    | some x =>
      configAfterSwitch env
        { si with ConfigMap := x.ConfigMap, SetImageInfo := x.SetImageInfo,
                  AdditionalImageFields := x.AdditionalImageFields } rl
  else
    .returned (si, some configError, false)

/-- The callback returned by the method `mutationTracker` (lines 168-193), as a function
from the callback arguments and the record map to the updated record map. -/
def mutationTracker (env : Env KubeObject RNode FieldSpec) (objRN : RNode) (ko : KubeObject) :
    TrackerCall → setImageResults → setImageResults :=
  let filePath := (env.GetFileAnnotations objRN).1
  let fileIndexStr := (env.GetFileAnnotations objRN).2
  let fileIndex := env.Atoi fileIndexStr
  fun call m =>
    let currentValue := call.node.Value
    let rk : setImageResultKey :=
      { ResourceRef :=
          { APIVersion := env.GetAPIVersion ko
            Kind := env.GetKind ko
            Name := env.GetName ko
            Namespace := env.GetNamespace ko }
        FilePath := filePath
        FileIndex := fileIndex
        FieldPath := ".".intercalate call.node.FieldPath }
    mapAssign m rk (mapIndex m rk ++ [{ CurrentValue := currentValue, UpdatedValue := call.value }])

/-- The filter built for every item (lines 140-148): `NewRegistry` is not copied. -/
def buildFilter (si : SetImage FieldSpec) : Filter FieldSpec :=
  { ImageTag :=
      { Name := si.SetImageInfo.Name
        NewName := si.SetImageInfo.NewName
        NewTag := si.SetImageInfo.NewTag }
    FsSlice := si.AdditionalImageFields }

/-- The `for _, obj := range rl.Items` loop of `Transform` (lines 135-161).
`transformedItems` is the slice built so far.  The result is the receiver and either
the error returned from inside the loop or the final `transformedItems`. -/
def transformLoop (env : Env KubeObject RNode FieldSpec) :
    SetImage FieldSpec → List KubeObject → List KubeObject →
      Outcome (SetImage FieldSpec × Except Error (List KubeObject))
  | si, transformedItems, [] => .returned (si, .ok transformedItems)
  | si, transformedItems, obj :: rest =>
    match env.Parse (env.objString obj) with
    | .error err => .returned (si, .error err)
    | .ok objRN =>
      let filter := buildFilter si
      let tracker := mutationTracker env objRN obj
      let run := env.ApplyToJSON filter objRN
      let si : SetImage FieldSpec :=
        { si with setImageResults := run.calls.foldl (fun m call => tracker call m) si.setImageResults }
      match run.result with
      | .error err => .returned (si, .error err)
      | .ok objRN =>
        match env.MustString objRN with
        | none => .panicked
        | some s =>
          match env.ParseKubeObject s with
          | .error err => .returned (si, .error err)
          | .ok obj => transformLoop env si (transformedItems ++ [obj]) rest

/-- The method `Transform` (lines 129-166); returns the receiver, the resource list and
the error. -/
def Transform (env : Env KubeObject RNode FieldSpec) (si : SetImage FieldSpec)
    (rl : ResourceList KubeObject) :
    Outcome (SetImage FieldSpec × ResourceList KubeObject × Option Error) :=
  if si.SetImageInfo.Name ≠ "" then
    match transformLoop env { si with setImageResults := [] } [] rl.Items with
    | .panicked => .panicked
    | .returned (si, .error err) => .returned (si, rl, some err)
    | .returned (si, .ok transformedItems) =>
      .returned (si, { rl with Items := transformedItems }, none)
  else
    .returned (si, rl, none)

/-- The result appended when the record map is empty (lines 199-202). -/
def noImagesChanged : Result :=
  { Message := "no images changed", Severity := .Info }

/-- The result built for one pair `sir` stored under the key `k` (lines 208-218). -/
def setImageResultOf (k : setImageResultKey) (sir : setImageResult) : Result :=
  { Message := "set image from " ++ sir.CurrentValue ++ " to " ++ sir.UpdatedValue
    Field := some
      { Path := k.FieldPath
        CurrentValue := sir.CurrentValue
        ProposedValue := sir.UpdatedValue }
    File := some { Path := k.FilePath, Index := k.FileIndex }
    Severity := .Info
    ResourceRef := some k.ResourceRef }

/-- The loop `for k, v := range si.setImageResults` with its inner loop (lines 205-220),
run over the entries in the order `enum` in which the Go runtime hands them out. -/
def rangeLoop (results : List Result) (enum : setImageResults) : List Result :=
  enum.foldl (fun results kv => kv.2.foldl (fun results sir => results ++ [setImageResultOf kv.1 sir]) results)
    results

/-- The type of sort keys, ordered lexicographically: the four components of the resource
reference, the file path, the file index, the field path and the before-value. -/
abbrev SortKey := String ×ₗ String ×ₗ String ×ₗ String ×ₗ String ×ₗ Int ×ₗ String ×ₗ String

/-- Modelled from the spec: the key of the order used by `fn.Results.Sort` (SDK code, not
in the repository), which the specification gives as resource reference, then file path,
then file index, then field path, then before-value.  A nil pointer counts as the zero
value. -/
def sortKey (r : Result) : SortKey :=
  let ref := r.ResourceRef.getD {}
  let file := r.File.getD { Path := "", Index := 0 }
  let field := r.Field.getD { Path := "", CurrentValue := "", ProposedValue := "" }
  toLex (ref.APIVersion, toLex (ref.Kind, toLex (ref.Name, toLex (ref.Namespace,
    toLex (file.Path, toLex (file.Index, toLex (field.Path, field.CurrentValue)))))))

/-- Modelled from the spec: the comparison used by `fn.Results.Sort`, the order of the
sort keys. -/
def resultLE (a b : Result) : Prop := sortKey a ≤ sortKey b

instance instDecidableResultLE : DecidableRel resultLE :=
  fun a b => inferInstanceAs (Decidable (sortKey a ≤ sortKey b))

instance instIsTotalResultLE : IsTotal Result resultLE := ⟨fun a b => le_total (sortKey a) (sortKey b)⟩

instance instIsTransResultLE : IsTrans Result resultLE :=
  ⟨fun _ _ _ hab hbc => le_trans (α := SortKey) hab hbc⟩

/-- Modelled from the spec: `fn.Results.Sort` (SDK code, not in the repository), the sort
of the result sequence by the deterministic total order of §4.6.  It is a stable sort:
results with equal keys keep their relative order. -/
def ResultsSort (results : List Result) : List Result :=
  results.insertionSort resultLE

/-- The method `SdkResults` (lines 196-223).  `enum` is the order in which the `range`
loop enumerates the entries of `si.setImageResults`. -/
def SdkResults (si : SetImage FieldSpec) (enum : setImageResults) : List Result :=
  let results : List Result := []
  if mapLen si.setImageResults = 0 then
    results ++ [noImagesChanged]
  else
    ResultsSort (rangeLoop results enum)

/-- The function `setImage` of `main.go` (lines 12-30); returns the resource list, the
flag and the error.  `enum` maps the record map to the order in which the `range` loop of
`SdkResults` enumerates it. -/
def setImage (env : Env KubeObject RNode FieldSpec) (enum : setImageResults → setImageResults)
    (rl : ResourceList KubeObject) : Outcome (ResourceList KubeObject × Bool × Option Error) :=
  let si : SetImage FieldSpec := {}
  match Config env si rl with
  | .panicked => .panicked
  | .returned (si, err, ok) =>
    if !ok then
      .returned (rl, false, err)
    else
      match err with
      | some err =>
        .returned ({ rl with Results := rl.Results ++ [env.ErrorConfigObjectResult err rl.FunctionConfig] },
          true, none)
      | none =>
        match Transform env si rl with
        | .panicked => .panicked
        | .returned (_, rl, some err) => .returned (rl, false, some err)
        | .returned (si, rl, none) =>
          .returned ({ rl with Results := rl.Results ++ SdkResults si (enum si.setImageResults) },
            true, none)

/-- The key under which the callback of `mutationTracker env objRN ko` files a visit of
`node` (lines 173-187). -/
def recordKey (env : Env KubeObject RNode FieldSpec) (objRN : RNode) (ko : KubeObject)
    (node : ScalarNode) : setImageResultKey :=
  { ResourceRef :=
      { APIVersion := env.GetAPIVersion ko
        Kind := env.GetKind ko
        Name := env.GetName ko
        Namespace := env.GetNamespace ko }
    FilePath := (env.GetFileAnnotations objRN).1
    FileIndex := env.Atoi (env.GetFileAnnotations objRN).2
    FieldPath := ".".intercalate node.FieldPath }

/-- The results the `range` loop builds from one map entry. -/
def entryResults (kv : setImageResultKey × List setImageResult) : List Result :=
  kv.2.map (setImageResultOf kv.1)

/-- What the loop body of `Transform` (lines 136-160) makes of one item under the filter
`filter`, the tracker left aside: the rewritten item, the error returned, or a panic. -/
def itemOutcome (env : Env KubeObject RNode FieldSpec) (filter : Filter FieldSpec)
    (obj : KubeObject) : Outcome (Except Error KubeObject) :=
  match env.Parse (env.objString obj) with
  | .error err => .returned (.error err)
  | .ok objRN =>
    match (env.ApplyToJSON filter objRN).result with
    | .error err => .returned (.error err)
    | .ok objRN =>
      match env.MustString objRN with
      | none => .panicked
      | some s => .returned (env.ParseKubeObject s)

/-- What a call of `Transform` leaves behind besides the rule itself: the record map, the
items and the error. -/
def transformView (env : Env KubeObject RNode FieldSpec) (si : SetImage FieldSpec)
    (rl : ResourceList KubeObject) : Outcome (setImageResults × List KubeObject × Option Error) :=
  match Transform env si rl with
  | .panicked => .panicked
  | .returned (si, rl, err) => .returned (si.setImageResults, rl.Items, err)

/-- Whether `getSetImageConfig` reads the rule from the item: a v1 ConfigMap with the
configured name. -/
def isRuleSource (env : Env KubeObject RNode FieldSpec) (name : String) (o : KubeObject) : Bool :=
  env.IsGVK o "" "v1" "ConfigMap" && decide (name = env.GetName o)

/-- A record map is well formed when no key occurs twice, as in every Go map. -/
def WellFormed (m : setImageResults) : Prop := (mapKeys m).Nodup

instance instDecidableWellFormed (m : setImageResults) : Decidable (WellFormed m) :=
  inferInstanceAs (Decidable (mapKeys m).Nodup)

/-- The list `enum` is an enumeration of the map `m`: the same entries in some order. -/
def IsEnumeration (m enum : setImageResults) : Prop := enum.Perm m

end Program

/-! ## A sample environment

A small, executable instance of `Env`, used to run the program on concrete inputs.
Documents carry their identity, their file annotations, one image scalar at `spec.image`
and a flat `data` mapping; their text form is the list of these fields separated by `|`.
-/

namespace Sample

/-- A document of the sample environment.  `image` is the scalar at `spec.image` (empty
when the field is absent, `[]` when the node is a sequence); `data` lists the entries of
the `data` mapping as key, value, key, value, ...; for a `SetImageFromConfigMap` the same
list holds the fields of the object under their dotted paths.  A list of odd length
stands for content that cannot be decoded. -/
structure Doc where
  apiVersion : String
  kind : String
  name : String
  nspace : String
  path : String
  index : String
  image : String
  data : List String
  deriving DecidableEq, Repr

/-- Text form of a document. -/
def encode (d : Doc) : String :=
  "|".intercalate ([d.apiVersion, d.kind, d.name, d.nspace, d.path, d.index, d.image] ++ d.data)

/-- Splits a text at every `|`; `cur` is the field read so far. -/
def splitFields : List Char → List Char → List String
  | cur, [] => [String.mk cur]
  | cur, c :: cs => if c = '|' then String.mk cur :: splitFields [] cs else splitFields (cur ++ [c]) cs

/-- Reads a document back from its text form. -/
def decode (s : String) : Except Error Doc :=
  match splitFields [] s.data with
  | a :: k :: n :: ns :: p :: i :: img :: data => .ok ⟨a, k, n, ns, p, i, img, data⟩
  | _ => .error "cannot parse the document"

/-- The value stored under `key` in a flat `data` list, or `dflt`. -/
def dataGet : List String → String → String → String
  | k :: v :: rest, key, dflt => if k = key then v else dataGet rest key dflt
  | _, _, dflt => dflt

/-- Whether a flat `data` list is a mapping: every key has a value. -/
def dataOk (data : List String) : Bool := data.length % 2 = 0

/-- Splits an image at its first `:` into name and tag. -/
def splitImage : List Char → List Char → String × String
  | cur, [] => (String.mk cur, "")
  | cur, c :: cs => if c = ':' then (String.mk cur, String.mk cs) else splitImage (cur ++ [c]) cs

/-- Reads a decimal number, 0 when the text is not one. -/
def atoi (s : String) : Int :=
  if s.data.all Char.isDigit ∧ s.data ≠ [] then
    (s.data.foldl (fun n c => 10 * n + (c.toNat - 48)) 0 : Nat)
  else 0

/-- The image filter of the sample environment: a scalar whose name part equals
`ImageTag.Name` gets the new name and the new tag, where these are set; the callback is
invoked with the new value while the node still holds the old one. -/
def applyFilter (f : Filter String) (d : Doc) : FilterRun Doc :=
  if d.image = "" then ⟨[], .ok d⟩
  else if d.image = "[]" then ⟨[], .error "wrong node kind: expected ScalarNode"⟩
  else
    let nt := splitImage [] d.image.data
    if nt.1 = f.ImageTag.Name then
      let name := if f.ImageTag.NewName ≠ "" then f.ImageTag.NewName else nt.1
      let tag := if f.ImageTag.NewTag ≠ "" then f.ImageTag.NewTag else nt.2
      let value := if tag ≠ "" then name ++ ":" ++ tag else name
      ⟨[{ key := "", value := value, tag := "", node := ⟨d.image, ["spec", "image"]⟩ }],
        .ok { d with image := value }⟩
    else ⟨[], .ok d⟩

/-- The sample environment. -/
def env : Env Doc Doc String where
  IsGVK d g v k := d.apiVersion = (if g = "" then v else g ++ "/" ++ v) ∧ d.kind = k
  GetName d := d.name
  GetNamespace d := d.nspace
  GetKind d := d.kind
  GetAPIVersion d := d.apiVersion
  objString := encode
  GetOrDieConfigMap d cm := if dataOk d.data then some ⟨dataGet d.data "name" cm.Name⟩ else none
  GetOrDieSetImageInfo d info :=
    if dataOk d.data then
      some ⟨dataGet d.data "name" info.Name, dataGet d.data "newName" info.NewName,
        dataGet d.data "newRegistry" info.NewRegistry, dataGet d.data "newTag" info.NewTag⟩
    else none
  AsOrDie d x :=
    if dataOk d.data then
      some ⟨⟨dataGet d.data "configMap.name" x.ConfigMap.Name⟩,
        ⟨dataGet d.data "setImageInfo.name" x.SetImageInfo.Name,
          dataGet d.data "setImageInfo.newName" x.SetImageInfo.NewName,
          dataGet d.data "setImageInfo.newRegistry" x.SetImageInfo.NewRegistry,
          dataGet d.data "setImageInfo.newTag" x.SetImageInfo.NewTag⟩,
        x.AdditionalImageFields⟩
    else none
  ParseKubeObject := decode
  ErrorConfigObjectResult err d :=
    { Message := err, Severity := .Error,
      ResourceRef := some ⟨d.apiVersion, d.kind, d.name, d.nspace⟩ }
  Parse := decode
  MustString d := some (encode d)
  GetFileAnnotations d := (d.path, d.index)
  Atoi := atoi
  ApplyToJSON := applyFilter
  defaultImageFields := (["spec/containers[]/image"], none)

/-- A Deployment running `nginx:1.20.2`. -/
def web : Doc := ⟨"apps/v1", "Deployment", "web", "prod", "web.yaml", "0", "nginx:1.20.2", []⟩

/-- The Deployment `web` after the rule of `cm` has been applied. -/
def webNew : Doc := { web with image := "nginx:1.21.6" }

/-- A Deployment running another image. -/
def db : Doc := ⟨"apps/v1", "Deployment", "db", "prod", "db.yaml", "1", "postgres:15", []⟩

/-- A Deployment whose `spec.image` is a sequence instead of a scalar. -/
def broken : Doc := ⟨"apps/v1", "Deployment", "broken", "prod", "broken.yaml", "0", "[]", []⟩

/-- A ConfigMap named `cm` holding a rule. -/
def cm : Doc :=
  ⟨"v1", "ConfigMap", "cm", "prod", "cm.yaml", "0", "",
    ["name", "nginx", "newRegistry", "gcr.io/proj", "newTag", "1.21.6"]⟩

/-- A second ConfigMap named `cm`, in another namespace, holding another rule. -/
def cmOther : Doc :=
  ⟨"v1", "ConfigMap", "cm", "staging", "cm2.yaml", "0", "", ["name", "postgres", "newTag", "16"]⟩

/-- A ConfigMap named `cm` whose `data` is not a mapping of strings. -/
def cmBad : Doc := ⟨"v1", "ConfigMap", "cm", "prod", "bad.yaml", "0", "", ["name"]⟩

/-- A ConfigMap function config naming the config map `cm`. -/
def fnConfigMap : Doc := ⟨"v1", "ConfigMap", "fn-config", "", "", "", "", ["name", "cm"]⟩

/-- A `SetImageFromConfigMap` function config with an inline rule. -/
def fnInline : Doc :=
  ⟨"fn.kpt.dev/v1alpha1", "SetImageFromConfigMap", "fn-config", "", "", "", "",
    ["configMap.name", "cm", "setImageInfo.name", "nginx", "setImageInfo.newTag", "1.21.6"]⟩

/-- A function config of an unrecognised kind. -/
def fnOther : Doc := ⟨"apps/v1", "Deployment", "fn-config", "", "", "", "", []⟩

/-- The rule of the override-composition example of the specification. -/
def nginxRule : SetImageInfo :=
  { Name := "nginx", NewRegistry := "gcr.io/proj", NewTag := "1.21.6" }

/-- The record key of the image of `web`. -/
def webKey : setImageResultKey :=
  ⟨⟨"apps/v1", "Deployment", "web", "prod"⟩, "web.yaml", 0, "spec.image"⟩

/-- The record key of a second image field of `web`. -/
def sidecarKey : setImageResultKey := { webKey with FieldPath := "spec.sidecar" }

/-- A record map with two keys and three pairs, two of them equal. -/
def records : setImageResults :=
  [(webKey, [⟨"nginx:1.20.2", "nginx:1.21.6"⟩, ⟨"nginx:1.20.2", "nginx:1.21.6"⟩]),
   (sidecarKey, [⟨"nginx", "nginx:1.21.6"⟩])]

/-- The entries of `records` in the opposite order. -/
def recordsRev : setImageResults :=
  [(sidecarKey, [⟨"nginx", "nginx:1.21.6"⟩]),
   (webKey, [⟨"nginx:1.20.2", "nginx:1.21.6"⟩, ⟨"nginx:1.20.2", "nginx:1.21.6"⟩])]

end Sample

/-! ## Lemmas on the record map and on the `range` loop -/

section Lemmas

variable {KubeObject RNode FieldSpec : Type}

theorem mapIndex_mapAssign_self (m : setImageResults) (k : setImageResultKey)
    (v : List setImageResult) : mapIndex (mapAssign m k v) k = v := by
  induction m with
  | nil => simp [mapAssign, mapIndex]
  | cons e m ih =>
    obtain ⟨k0, v0⟩ := e
    by_cases h : k0 = k
    · simp [mapAssign, mapIndex, h]
    · simp [mapAssign, mapIndex, h, ih]

theorem mapIndex_mapAssign_other (m : setImageResults) (k k1 : setImageResultKey)
    (v : List setImageResult) (hne : k1 ≠ k) : mapIndex (mapAssign m k v) k1 = mapIndex m k1 := by
  induction m with
  | nil => simp [mapAssign, mapIndex, Ne.symm hne]
  | cons e m ih =>
    obtain ⟨k0, v0⟩ := e
    by_cases h : k0 = k
    · subst h
      simp [mapAssign, mapIndex, Ne.symm hne]
    · by_cases h1 : k0 = k1
      · subst h1
        simp [mapAssign, mapIndex, h]
      · simp [mapAssign, mapIndex, h, h1, ih]

theorem mapKeys_mapAssign (m : setImageResults) (k : setImageResultKey)
    (v : List setImageResult) :
    mapKeys (mapAssign m k v) = if k ∈ mapKeys m then mapKeys m else mapKeys m ++ [k] := by
  induction m with
  | nil => simp [mapAssign, mapKeys]
  | cons e m ih =>
    obtain ⟨k0, v0⟩ := e
    by_cases h : k0 = k
    · subst h
      simp [mapAssign, mapKeys]
    · have h1 : ¬ k = k0 := fun e => h e.symm
      simp only [mapKeys] at ih
      by_cases hm : k ∈ List.map Prod.fst m
      · simp [mapAssign, mapKeys, h, h1, hm, ih]
      · simp [mapAssign, mapKeys, h, h1, hm, ih]

theorem mutationTracker_eq (env : Env KubeObject RNode FieldSpec) (objRN : RNode) (ko : KubeObject)
    (call : TrackerCall) (m : setImageResults) :
    mutationTracker env objRN ko call m =
      mapAssign m (recordKey env objRN ko call.node)
        (mapIndex m (recordKey env objRN ko call.node) ++ [⟨call.node.Value, call.value⟩]) :=
  rfl

theorem innerLoop_eq (k : setImageResultKey) (v : List setImageResult) (results : List Result) :
    v.foldl (fun results sir => results ++ [setImageResultOf k sir]) results =
      results ++ v.map (setImageResultOf k) := by
  induction v generalizing results with
  | nil => simp
  | cons sir v ih => simp [ih]

theorem rangeLoop_eq (results : List Result) (enum : setImageResults) :
    rangeLoop results enum = results ++ enum.flatMap entryResults := by
  induction enum generalizing results with
  | nil => simp [rangeLoop]
  | cons kv enum ih =>
    have h := ih (results ++ kv.2.map (setImageResultOf kv.1))
    simp only [rangeLoop, List.foldl_cons, innerLoop_eq] at h ⊢
    rw [h]
    simp [entryResults]

theorem SdkResults_of_nonempty (si : SetImage FieldSpec) (enum : setImageResults)
    (hne : si.setImageResults ≠ []) :
    SdkResults si enum = ResultsSort (enum.flatMap entryResults) := by
  have h : ¬ mapLen si.setImageResults = 0 := by
    simpa [mapLen] using hne
  simp [SdkResults, h, rangeLoop_eq]

theorem message_ne_noImagesChanged (a b : String) :
    "set image from " ++ a ++ " to " ++ b ≠ "no images changed" := by
  intro h
  have h1 := congrArg String.data h
  simp [String.data_append] at h1

end Lemmas

/-! ## The empty rule (C1) -/

section EmptyRule

variable {KubeObject RNode FieldSpec : Type}

/-- C1: with an empty `Name` and no records yet, `Transform` returns no error and leaves
the receiver and the resource list (hence `rl.Items`) as they were, whatever the field
specs and the items are; `SdkResults` then returns exactly one result, with message
"no images changed", severity Info and no field, file or resource reference. -/
theorem Transform_empty_rule_noop (env : Env KubeObject RNode FieldSpec) (si : SetImage FieldSpec)
    (rl : ResourceList KubeObject) (enum : setImageResults)
    (hName : si.SetImageInfo.Name = "") (hFresh : si.setImageResults = []) :
    Transform env si rl = .returned (si, rl, none) ∧
      SdkResults si enum =
        [{ Message := "no images changed", Severity := .Info, ResourceRef := none,
           Field := none, File := none }] := by
  constructor
  · simp [Transform, hName]
  · simp [SdkResults, hFresh, mapLen, noImagesChanged]

/-- C1 at a concrete input: the empty rule over two sample documents. -/
theorem Transform_empty_rule_noop_witness :
    Transform Sample.env ({} : SetImage String) ⟨Sample.fnConfigMap, [Sample.web, Sample.db], []⟩ =
        .returned ({}, ⟨Sample.fnConfigMap, [Sample.web, Sample.db], []⟩, none) ∧
      SdkResults ({} : SetImage String) [] =
        [{ Message := "no images changed", Severity := .Info, ResourceRef := none,
           Field := none, File := none }] :=
  Transform_empty_rule_noop Sample.env {} ⟨Sample.fnConfigMap, [Sample.web, Sample.db], []⟩ [] rfl rfl

end EmptyRule

/-! ## The result aggregator (C3, C5) -/

section Aggregator

variable {FieldSpec : Type}

/-- C3: the sequence returned by `SdkResults` is sorted in non-decreasing order of the
key (resource reference, file path, file index, field path, before-value), for every
record map and every order in which the map is enumerated. -/
theorem SdkResults_sorted (si : SetImage FieldSpec) (enum : setImageResults) :
    (SdkResults si enum).Sorted (fun a b => sortKey a ≤ sortKey b) := by
  by_cases h : mapLen si.setImageResults = 0
  · simp [SdkResults, h]
  · simp only [SdkResults, h, if_false]
    exact List.sorted_insertionSort resultLE _

/-- C5: for a non-empty record map, `SdkResults` returns the results of the pairs of the
map, one result per stored pair: the output is a rearrangement of the list holding one
result for every pair of every entry, its length is the sum of the lengths of the value
lists, every result carries the message "set image from <CurrentValue> to
<UpdatedValue>", severity Info, the reference, file and field path of its key and the
two values of its pair, and none is the "no images changed" result. -/
theorem SdkResults_one_per_pair (si : SetImage FieldSpec) (enum : setImageResults)
    (hne : si.setImageResults ≠ []) (henum : IsEnumeration si.setImageResults enum) :
    (SdkResults si enum).Perm
        (si.setImageResults.flatMap fun kv => kv.2.map fun sir =>
          { Message := "set image from " ++ sir.CurrentValue ++ " to " ++ sir.UpdatedValue
            Severity := .Info
            ResourceRef := some kv.1.ResourceRef
            File := some { Path := kv.1.FilePath, Index := kv.1.FileIndex }
            Field := some
              { Path := kv.1.FieldPath, CurrentValue := sir.CurrentValue,
                ProposedValue := sir.UpdatedValue } }) ∧
      (SdkResults si enum).length = (si.setImageResults.map fun kv => kv.2.length).sum ∧
      ∀ r ∈ SdkResults si enum, r.Message ≠ "no images changed" := by
  have hperm : (SdkResults si enum).Perm (si.setImageResults.flatMap entryResults) := by
    rw [SdkResults_of_nonempty si enum hne]
    exact (List.perm_insertionSort resultLE _).trans (List.Perm.flatMap_right _ henum)
  refine ⟨hperm, ?_, ?_⟩
  · rw [hperm.length_eq, List.length_flatMap]
    simp [entryResults, Function.comp_def]
  · intro r hr
    have hr1 := hperm.mem_iff.mp hr
    simp only [List.mem_flatMap, entryResults, List.mem_map] at hr1
    obtain ⟨kv, _, sir, _, rfl⟩ := hr1
    exact message_ne_noImagesChanged _ _

/-- C5 at a concrete input: a map with two keys and three pairs, enumerated in the
opposite order, gives three results. -/
theorem SdkResults_one_per_pair_witness :
    Sample.records ≠ [] ∧ IsEnumeration Sample.records Sample.recordsRev ∧
      (SdkResults ({ setImageResults := Sample.records } : SetImage String) Sample.recordsRev).length =
        (Sample.records.map fun kv => kv.2.length).sum :=
  ⟨by decide, List.Perm.swap _ _ [],
    (SdkResults_one_per_pair ({ setImageResults := Sample.records } : SetImage String)
      Sample.recordsRev (by decide) (List.Perm.swap _ _ [])).2.1⟩

end Aggregator

/-! ## The mutation tracker (C9) -/

section Tracker

variable {KubeObject RNode FieldSpec : Type}

/-- C9: one invocation of the callback of `mutationTracker` appends the pair
(current value, new value) at the end of the list under the key of the visited node,
keeps the pairs already there, leaves the list of every other key as it was and adds at
most this key to the map, also when the same pair is already recorded; so a second visit
with the same values leaves two equal pairs, and from an empty map `SdkResults` then
returns two equal results. -/
theorem mutationTracker_appends (env : Env KubeObject RNode FieldSpec) (objRN : RNode)
    (ko : KubeObject) (call : TrackerCall) (m : setImageResults) :
    mapIndex (mutationTracker env objRN ko call m) (recordKey env objRN ko call.node) =
        mapIndex m (recordKey env objRN ko call.node) ++ [⟨call.node.Value, call.value⟩] ∧
      (∀ k, k ≠ recordKey env objRN ko call.node →
        mapIndex (mutationTracker env objRN ko call m) k = mapIndex m k) ∧
      mapKeys (mutationTracker env objRN ko call m) =
        (if recordKey env objRN ko call.node ∈ mapKeys m then mapKeys m
          else mapKeys m ++ [recordKey env objRN ko call.node]) ∧
      mapIndex (mutationTracker env objRN ko call (mutationTracker env objRN ko call m))
          (recordKey env objRN ko call.node) =
        mapIndex m (recordKey env objRN ko call.node) ++
          [⟨call.node.Value, call.value⟩, ⟨call.node.Value, call.value⟩] ∧
      ∀ (si : SetImage FieldSpec) (enum : setImageResults),
        si.setImageResults = mutationTracker env objRN ko call (mutationTracker env objRN ko call []) →
        IsEnumeration si.setImageResults enum →
        SdkResults si enum =
          [setImageResultOf (recordKey env objRN ko call.node) ⟨call.node.Value, call.value⟩,
           setImageResultOf (recordKey env objRN ko call.node) ⟨call.node.Value, call.value⟩] := by
  refine ⟨?_, ?_, ?_, ?_, ?_⟩
  · rw [mutationTracker_eq, mapIndex_mapAssign_self]
  · intro k hk
    rw [mutationTracker_eq, mapIndex_mapAssign_other _ _ _ _ hk]
  · rw [mutationTracker_eq, mapKeys_mapAssign]
  · rw [mutationTracker_eq, mapIndex_mapAssign_self, mutationTracker_eq, mapIndex_mapAssign_self]
    simp
  · intro si enum hsi henum
    have hm : si.setImageResults =
        [(recordKey env objRN ko call.node,
          [⟨call.node.Value, call.value⟩, ⟨call.node.Value, call.value⟩])] := by
      rw [hsi]
      simp [mutationTracker_eq, mapAssign, mapIndex]
    have he : enum = si.setImageResults := by
      rw [hm] at henum ⊢
      exact List.perm_singleton.mp henum
    rw [SdkResults_of_nonempty si enum (by simp [hm]), he, hm]
    simp [entryResults, ResultsSort, List.insertionSort, List.orderedInsert]

/-- C9 at a concrete input: the image of `web` visited twice, rewritten to the same value
both times. -/
theorem mutationTracker_appends_witness :
    mapIndex (mutationTracker Sample.env Sample.web Sample.web
        ⟨"", "nginx:1.21.6", "", ⟨"nginx:1.20.2", ["spec", "image"]⟩⟩
        [(Sample.webKey, [⟨"nginx:1.20.2", "nginx:1.21.6"⟩])])
      { Sample.webKey with FieldPath := "spec.sidecar" } =
      mapIndex [(Sample.webKey, [⟨"nginx:1.20.2", "nginx:1.21.6"⟩])]
        { Sample.webKey with FieldPath := "spec.sidecar" } :=
  (mutationTracker_appends Sample.env Sample.web Sample.web
    ⟨"", "nginx:1.21.6", "", ⟨"nginx:1.20.2", ["spec", "image"]⟩⟩
    [(Sample.webKey, [⟨"nginx:1.20.2", "nginx:1.21.6"⟩])]).2.1 _ (by decide)

end Tracker

/-! ## Stability of the sort and independence of the enumeration order (C4) -/

section Stability

variable {α : Type} {K : Type} [LinearOrder K]

theorem filter_orderedInsert_of_class (r : α → α → Prop) [DecidableRel r] (p : α → Bool)
    (hp : ∀ a b, p a = true → p b = true → r a b) (a : α) (l : List α) :
    (l.orderedInsert r a).filter p = (a :: l).filter p := by
  induction l with
  | nil => simp
  | cons b t ih =>
    by_cases hab : r a b
    · simp [List.orderedInsert, hab]
    · have hnot : ¬ (p a = true ∧ p b = true) := fun h => hab (hp a b h.1 h.2)
      simp only [List.orderedInsert, hab, if_false, List.filter_cons, ih]
      by_cases ha : p a = true
      · have hb : ¬ p b = true := fun hb => hnot ⟨ha, hb⟩
        simp [ha, hb]
      · simp [ha]

theorem filter_insertionSort_of_class (r : α → α → Prop) [DecidableRel r] (p : α → Bool)
    (hp : ∀ a b, p a = true → p b = true → r a b) (l : List α) :
    (l.insertionSort r).filter p = l.filter p := by
  induction l with
  | nil => simp
  | cons a t ih =>
    rw [List.insertionSort, filter_orderedInsert_of_class r p hp, List.filter_cons, ih,
      List.filter_cons]

theorem eq_of_sorted_of_filter_eq (key : α → K) :
    ∀ l1 l2 : List α, l1.Sorted (fun a b => key a ≤ key b) → l2.Sorted (fun a b => key a ≤ key b) →
      (∀ c, l1.filter (fun x => decide (key x = c)) = l2.filter (fun x => decide (key x = c))) →
      l1 = l2
  | [], [], _, _, _ => rfl
  | [], b :: t2, _, _, h => by
    have hb := h (key b)
    simp at hb
  | a :: t1, [], _, _, h => by
    have ha := h (key a)
    simp at ha
  | a :: t1, b :: t2, h1, h2, h => by
    have hab : key a ≤ key b := by
      have hb : b ∈ (a :: t1).filter (fun x => decide (key x = key b)) := by
        rw [h (key b)]
        simp
      have hb1 := (List.mem_filter.mp hb).1
      rcases List.mem_cons.mp hb1 with e | hm
      · rw [e]
      · exact List.rel_of_sorted_cons h1 b hm
    have hba : key b ≤ key a := by
      have ha : a ∈ (b :: t2).filter (fun x => decide (key x = key a)) := by
        rw [← h (key a)]
        simp
      have ha1 := (List.mem_filter.mp ha).1
      rcases List.mem_cons.mp ha1 with e | hm
      · rw [e]
      · exact List.rel_of_sorted_cons h2 a hm
    have hk : key b = key a := le_antisymm hba hab
    have hhead := h (key a)
    simp only [List.filter_cons, hk, decide_True, if_true] at hhead
    have e : a = b := (List.cons.inj hhead).1
    subst e
    have htail : t1 = t2 := by
      apply eq_of_sorted_of_filter_eq key t1 t2 h1.of_cons h2.of_cons
      intro c
      have hc := h c
      by_cases hkc : key a = c
      · simp only [List.filter_cons, hkc, decide_True, if_true] at hc
        exact (List.cons.inj hc).2
      · simpa [List.filter_cons, hkc] using hc
    rw [htail]

theorem flatMap_eq_of_perm {β : Type} (h : α → List β) {l1 l2 : List α} (hp : l1.Perm l2)
    (hpw : l1.Pairwise (fun x y => h x = [] ∨ h y = [])) : l1.flatMap h = l2.flatMap h := by
  induction hp with
  | nil => rfl
  | cons x _ ih =>
    rw [List.flatMap_cons, List.flatMap_cons, ih (List.Pairwise.of_cons hpw)]
  | swap x y l =>
    have hxy : h y = [] ∨ h x = [] := List.rel_of_pairwise_cons hpw (List.mem_cons_self x l)
    rcases hxy with e | e <;> simp [List.flatMap_cons, e]
  | trans p1 _ ih1 ih2 =>
    have hsymm : ∀ {x y : α}, (h x = [] ∨ h y = []) → (h y = [] ∨ h x = []) := fun hxy => hxy.symm
    rw [ih1 hpw, ih2 (p1.pairwise hpw hsymm)]

theorem sort_flatMap_eq_of_perm {β : Type} (key : β → K) (g : α → List β) {l1 l2 : List α}
    (hp : l1.Perm l2)
    (hpw : l1.Pairwise (fun x y => ∀ b ∈ g x, ∀ b1 ∈ g y, key b ≠ key b1)) :
    (l1.flatMap g).insertionSort (fun a b => key a ≤ key b) =
      (l2.flatMap g).insertionSort (fun a b => key a ≤ key b) := by
  have htot : IsTotal β (fun a b => key a ≤ key b) := ⟨fun a b => le_total (key a) (key b)⟩
  have htr : IsTrans β (fun a b => key a ≤ key b) := ⟨fun _ _ _ hab hbc => le_trans hab hbc⟩
  apply eq_of_sorted_of_filter_eq key _ _ (List.sorted_insertionSort _ _)
    (List.sorted_insertionSort _ _)
  intro c
  have hclass : ∀ a b : β, decide (key a = c) = true → decide (key b = c) = true → key a ≤ key b := by
    intro a b ha hb
    rw [of_decide_eq_true ha, of_decide_eq_true hb]
  rw [filter_insertionSort_of_class _ _ hclass, filter_insertionSort_of_class _ _ hclass,
    List.filter_flatMap, List.filter_flatMap]
  apply flatMap_eq_of_perm _ hp
  refine hpw.imp ?_
  intro x y hxy
  by_contra hne
  rw [not_or] at hne
  obtain ⟨b, hb⟩ := List.exists_mem_of_ne_nil _ hne.1
  obtain ⟨b1, hb1⟩ := List.exists_mem_of_ne_nil _ hne.2
  rw [List.mem_filter] at hb hb1
  exact hxy b hb.1 b1 hb1.1 ((of_decide_eq_true hb.2).trans (of_decide_eq_true hb1.2).symm)

end Stability

section Determinism

variable {FieldSpec : Type}

theorem sortKey_setImageResultOf_inj (k k1 : setImageResultKey) (s s1 : setImageResult)
    (h : sortKey (setImageResultOf k s) = sortKey (setImageResultOf k1 s1)) : k = k1 := by
  obtain ⟨⟨a, b, c, d⟩, p, i, f⟩ := k
  obtain ⟨⟨a1, b1, c1, d1⟩, p1, i1, f1⟩ := k1
  simp only [sortKey, setImageResultOf, Option.getD_some] at h
  have h0 := congrArg ofLex h
  simp only [ofLex_toLex, Prod.mk.injEq] at h0
  obtain ⟨ha, h0⟩ := h0
  have h0 := congrArg ofLex h0
  simp only [ofLex_toLex, Prod.mk.injEq] at h0
  obtain ⟨hb, h0⟩ := h0
  have h0 := congrArg ofLex h0
  simp only [ofLex_toLex, Prod.mk.injEq] at h0
  obtain ⟨hc, h0⟩ := h0
  have h0 := congrArg ofLex h0
  simp only [ofLex_toLex, Prod.mk.injEq] at h0
  obtain ⟨hd, h0⟩ := h0
  have h0 := congrArg ofLex h0
  simp only [ofLex_toLex, Prod.mk.injEq] at h0
  obtain ⟨hp, h0⟩ := h0
  have h0 := congrArg ofLex h0
  simp only [ofLex_toLex, Prod.mk.injEq] at h0
  obtain ⟨hi, h0⟩ := h0
  have h0 := congrArg ofLex h0
  simp only [ofLex_toLex, Prod.mk.injEq] at h0
  obtain ⟨hf, _⟩ := h0
  subst ha hb hc hd hp hi hf
  rfl

/-- C4: `SdkResults` does not depend on the order in which the `range` loop enumerates the
record map: for a well-formed map and any two enumerations of its entries, the two
returned sequences are equal (same length, same result at every position). -/
theorem SdkResults_order_independent (si : SetImage FieldSpec) (enum1 enum2 : setImageResults)
    (hwf : WellFormed si.setImageResults)
    (h1 : IsEnumeration si.setImageResults enum1) (h2 : IsEnumeration si.setImageResults enum2) :
    SdkResults si enum1 = SdkResults si enum2 := by
  by_cases hne : si.setImageResults = []
  · simp [SdkResults, hne, mapLen]
  · rw [SdkResults_of_nonempty si enum1 hne, SdkResults_of_nonempty si enum2 hne]
    have hp : enum1.Perm enum2 := h1.trans h2.symm
    have hnd : (enum1.map Prod.fst).Nodup := (h1.map Prod.fst).nodup_iff.mpr hwf
    have hpw : enum1.Pairwise (fun x y => x.1 ≠ y.1) := List.pairwise_map.mp hnd
    refine sort_flatMap_eq_of_perm sortKey entryResults hp (hpw.imp ?_)
    intro x y hxy b hb b1 hb1 hkey
    simp only [entryResults, List.mem_map] at hb hb1
    obtain ⟨s, _, rfl⟩ := hb
    obtain ⟨s1, _, rfl⟩ := hb1
    exact hxy (sortKey_setImageResultOf_inj _ _ _ _ hkey)

/-- C4 at a concrete input: a map with two keys enumerated in both orders. -/
theorem SdkResults_order_independent_witness :
    WellFormed Sample.records ∧ IsEnumeration Sample.records Sample.records ∧
      IsEnumeration Sample.records Sample.recordsRev ∧
      SdkResults ({ setImageResults := Sample.records } : SetImage String) Sample.records =
        SdkResults ({ setImageResults := Sample.records } : SetImage String) Sample.recordsRev :=
  ⟨by decide, List.Perm.refl _, List.Perm.swap _ _ [],
    SdkResults_order_independent ({ setImageResults := Sample.records } : SetImage String)
      Sample.records Sample.recordsRev (by decide) (List.Perm.refl _) (List.Perm.swap _ _ [])⟩

end Determinism

/-! ## The transform loop (C2, C6) -/

section TransformLoop

variable {KubeObject RNode FieldSpec : Type}

theorem transformLoop_error (env : Env KubeObject RNode FieldSpec) (x : KubeObject)
    (post : List KubeObject) (err : Error) :
    ∀ (pre : List KubeObject) (si : SetImage FieldSpec) (acc : List KubeObject),
      (∀ o ∈ pre, ∃ o1, itemOutcome env (buildFilter si) o = .returned (.ok o1)) →
      itemOutcome env (buildFilter si) x = .returned (.error err) →
      ∃ si1, transformLoop env si acc (pre ++ x :: post) = .returned (si1, .error err)
  | [], si, acc, _, hx => by
    simp only [List.nil_append, transformLoop]
    simp only [itemOutcome] at hx
    cases hP : env.Parse (env.objString x) with
    | error e =>
      rw [hP] at hx
      simp only [Outcome.returned.injEq, Except.error.injEq] at hx
      exact ⟨_, by rw [hx]⟩
    | ok objRN =>
      rw [hP] at hx
      simp only at hx ⊢
      cases hR : (env.ApplyToJSON (buildFilter si) objRN).result with
      | error e =>
        rw [hR] at hx
        simp only [Outcome.returned.injEq, Except.error.injEq] at hx
        exact ⟨_, by rw [hx]⟩
      | ok objRN1 =>
        rw [hR] at hx
        simp only at hx ⊢
        cases hS : env.MustString objRN1 with
        | none => rw [hS] at hx; simp at hx
        | some t =>
          rw [hS] at hx
          simp only [Outcome.returned.injEq] at hx
          simp only [hx]
          exact ⟨_, rfl⟩
  | o :: pre, si, acc, hpre, hx => by
    obtain ⟨o1, ho⟩ := hpre o (List.mem_cons_self o pre)
    have hrest : ∀ o2 ∈ pre, ∃ o3, itemOutcome env (buildFilter si) o2 = .returned (.ok o3) :=
      fun o2 h2 => hpre o2 (List.mem_cons_of_mem o h2)
    simp only [List.cons_append, transformLoop]
    simp only [itemOutcome] at ho
    cases hP : env.Parse (env.objString o) with
    | error e => rw [hP] at ho; simp at ho
    | ok objRN =>
      rw [hP] at ho
      simp only at ho ⊢
      cases hR : (env.ApplyToJSON (buildFilter si) objRN).result with
      | error e => rw [hR] at ho; simp at ho
      | ok objRN1 =>
        rw [hR] at ho
        simp only at ho ⊢
        cases hS : env.MustString objRN1 with
        | none => rw [hS] at ho; simp at ho
        | some t =>
          rw [hS] at ho
          simp only [Outcome.returned.injEq] at ho
          simp only [ho]
          exact transformLoop_error env x post err pre _ _ hrest hx

theorem transformLoop_congr (env : Env KubeObject RNode FieldSpec) :
    ∀ (items : List KubeObject) (si si2 : SetImage FieldSpec) (acc : List KubeObject),
      buildFilter si = buildFilter si2 → si.setImageResults = si2.setImageResults →
      (match transformLoop env si acc items with
        | .panicked => Outcome.panicked
        | .returned (s, r) => .returned (s.setImageResults, r)) =
      (match transformLoop env si2 acc items with
        | .panicked => Outcome.panicked
        | .returned (s, r) => .returned (s.setImageResults, r))
  | [], si, si2, acc, _, hm => by simp [transformLoop, hm]
  | o :: items, si, si2, acc, hf, hm => by
    simp only [transformLoop, hf, hm]
    cases env.Parse (env.objString o) with
    | error e => simp [hm]
    | ok objRN =>
      simp only
      cases (env.ApplyToJSON (buildFilter si2) objRN).result with
      | error e => simp
      | ok objRN1 =>
        simp only
        cases env.MustString objRN1 with
        | none => simp
        | some t =>
          simp only
          cases env.ParseKubeObject t with
          | error e => simp
          | ok o1 =>
            simp only
            exact transformLoop_congr env items _ _ _ hf rfl

end TransformLoop

section TransformClaims

variable {KubeObject RNode FieldSpec : Type}

/-- C2: `Transform` never looks at `NewRegistry`: whatever the library functions do, the
record map, the items and the error it leaves behind are the same for every value of
`NewRegistry`, so the registry of the rule is not applied to any image. -/
theorem Transform_ignores_NewRegistry (env : Env KubeObject RNode FieldSpec)
    (si : SetImage FieldSpec) (rl : ResourceList KubeObject) (reg : String) :
    transformView env { si with SetImageInfo := { si.SetImageInfo with NewRegistry := reg } } rl =
      transformView env si rl := by
  by_cases hName : si.SetImageInfo.Name = ""
  · simp [transformView, Transform, hName]
  · have h := transformLoop_congr env rl.Items
      { si with SetImageInfo := { si.SetImageInfo with NewRegistry := reg }, setImageResults := [] }
      { si with setImageResults := [] } [] rfl rfl
    simp only [transformView, Transform, ne_eq, hName, not_false_eq_true, if_true]
    revert h
    cases transformLoop env
      { si with SetImageInfo := { si.SetImageInfo with NewRegistry := reg }, setImageResults := [] }
      [] rl.Items with
    | panicked =>
      cases transformLoop env { si with setImageResults := [] } [] rl.Items with
      | panicked => simp
      | returned a => simp
    | returned a =>
      obtain ⟨s1, r1⟩ := a
      cases transformLoop env { si with setImageResults := [] } [] rl.Items with
      | panicked => simp
      | returned b =>
        obtain ⟨s2, r2⟩ := b
        intro h
        simp only [Outcome.returned.injEq, Prod.mk.injEq] at h
        obtain ⟨hs, hr⟩ := h
        subst hr
        cases r1 with
        | error e => simp [hs]
        | ok items => simp [hs]

/-- C6: when the items before `x` are processed without error and processing `x` fails
with `err` (parsing it, applying the image filter or re-parsing the rewritten item),
`Transform` returns `err` and leaves the resource list exactly as it was, whatever was
rewritten before; more generally the resource list is unchanged whenever `Transform`
returns an error; and `setImage` then returns failure with that error and the resource
list, `rl.Results` included, unchanged. -/
theorem Transform_atomic_on_failure (env : Env KubeObject RNode FieldSpec)
    (enum : setImageResults → setImageResults) (si : SetImage FieldSpec)
    (rl : ResourceList KubeObject) (pre : List KubeObject) (x : KubeObject)
    (post : List KubeObject) (err : Error)
    (hName : si.SetImageInfo.Name ≠ "")
    (hItems : rl.Items = pre ++ x :: post)
    (hpre : ∀ o ∈ pre, ∃ o1, itemOutcome env (buildFilter si) o = .returned (.ok o1))
    (hx : itemOutcome env (buildFilter si) x = .returned (.error err)) :
    (∃ si1, Transform env si rl = .returned (si1, rl, some err)) ∧
      (∀ si1 rl1 e, Transform env si rl = .returned (si1, rl1, some e) → rl1 = rl) ∧
      (Config env {} rl = .returned (si, none, true) →
        setImage env enum rl = .returned (rl, false, some err)) := by
  have hT : ∃ si1, Transform env si rl = .returned (si1, rl, some err) := by
    obtain ⟨si1, h1⟩ := transformLoop_error env x post err pre { si with setImageResults := [] } []
      hpre hx
    refine ⟨si1, ?_⟩
    simp only [Transform, ne_eq, hName, not_false_eq_true, if_true, hItems, h1]
  refine ⟨hT, ?_, ?_⟩
  · intro si1 rl1 e h
    simp only [Transform, ne_eq, hName, not_false_eq_true, if_true] at h
    cases hL : transformLoop env { si with setImageResults := [] } [] rl.Items with
    | panicked => rw [hL] at h; simp at h
    | returned a =>
      obtain ⟨s, r⟩ := a
      rw [hL] at h
      cases r with
      | error e1 =>
        simp only [Outcome.returned.injEq, Prod.mk.injEq] at h
        exact h.2.1.symm
      | ok items => simp at h
  · intro hC
    obtain ⟨si1, h1⟩ := hT
    simp [setImage, hC, h1]

/-- C6 at a concrete input: `web` is rewritten, `cm` is left alone, `broken` fails; the
whole pass fails and nothing of the resource list changes. -/
theorem Transform_atomic_on_failure_witness :
    itemOutcome Sample.env (buildFilter ⟨⟨"cm"⟩, Sample.nginxRule, ["spec/containers[]/image"], []⟩)
        Sample.web = .returned (.ok Sample.webNew) ∧
      setImage Sample.env id ⟨Sample.fnConfigMap, [Sample.web, Sample.cm, Sample.broken], []⟩ =
        .returned (⟨Sample.fnConfigMap, [Sample.web, Sample.cm, Sample.broken], []⟩, false,
          some "wrong node kind: expected ScalarNode") :=
  ⟨rfl,
    (Transform_atomic_on_failure Sample.env id
      ⟨⟨"cm"⟩, Sample.nginxRule, ["spec/containers[]/image"], []⟩
      ⟨Sample.fnConfigMap, [Sample.web, Sample.cm, Sample.broken], []⟩
      [Sample.web, Sample.cm] Sample.broken [] "wrong node kind: expected ScalarNode"
      (by decide) rfl
      (by
        intro o ho
        rcases List.mem_cons.mp ho with h | h
        · exact ⟨Sample.webNew, by rw [h]; rfl⟩
        · rw [List.mem_singleton.mp h]
          exact ⟨Sample.cm, rfl⟩)
      rfl).2.2 rfl⟩

end TransformClaims

/-! ## Configuration (C7, C8, C10) -/

section Configuration

variable {KubeObject RNode FieldSpec : Type}

theorem getSetImageConfig_no_source (env : Env KubeObject RNode FieldSpec) :
    ∀ (items : List KubeObject) (si : SetImage FieldSpec),
      (∀ o ∈ items, isRuleSource env si.ConfigMap.Name o = false) →
      getSetImageConfig env si items = .returned (si, none)
  | [], si, _ => rfl
  | o :: items, si, h => by
    have ho := h o (List.mem_cons_self o items)
    have hrest := getSetImageConfig_no_source env items si
      (fun o1 h1 => h o1 (List.mem_cons_of_mem o h1))
    simp only [isRuleSource, Bool.and_eq_false_iff, decide_eq_false_iff_not] at ho
    simp only [getSetImageConfig]
    rcases ho with hg | hn
    · simp [hg, hrest]
    · simp [hn, hrest]

theorem getSetImageConfig_last_source (env : Env KubeObject RNode FieldSpec) (o : KubeObject)
    (post : List KubeObject) (info : SetImageInfo) :
    ∀ (pre : List KubeObject) (si : SetImage FieldSpec),
      isRuleSource env si.ConfigMap.Name o = true →
      (∀ p ∈ post, isRuleSource env si.ConfigMap.Name p = false) →
      (∀ p ∈ pre, isRuleSource env si.ConfigMap.Name p = true →
        ∃ i, env.GetOrDieSetImageInfo p {} = some i) →
      env.GetOrDieSetImageInfo o {} = some info →
      getSetImageConfig env si (pre ++ o :: post) = .returned ({ si with SetImageInfo := info }, none)
  | [], si, ho, hpost, _, hinfo => by
    simp only [isRuleSource, Bool.and_eq_true, decide_eq_true_eq] at ho
    simp only [List.nil_append, getSetImageConfig, ho.1, ho.2, if_true, hinfo]
    exact getSetImageConfig_no_source env post { si with SetImageInfo := info } hpost
  | p :: pre, si, ho, hpost, hpre, hinfo => by
    have hrest : ∀ q ∈ pre, isRuleSource env si.ConfigMap.Name q = true →
        ∃ i, env.GetOrDieSetImageInfo q {} = some i :=
      fun q hq => hpre q (List.mem_cons_of_mem p hq)
    simp only [List.cons_append, getSetImageConfig]
    by_cases hp : isRuleSource env si.ConfigMap.Name p = true
    · obtain ⟨i, hi⟩ := hpre p (List.mem_cons_self p pre) hp
      simp only [isRuleSource, Bool.and_eq_true, decide_eq_true_eq] at hp
      simp only [hp.1, hp.2, if_true, hi]
      exact getSetImageConfig_last_source env o post info pre { si with SetImageInfo := i }
        ho hpost hrest hinfo
    · have hp1 : ¬ (env.IsGVK p "" "v1" "ConfigMap" = true ∧ si.ConfigMap.Name = env.GetName p) := by
        simpa [isRuleSource] using hp
      have ih := getSetImageConfig_last_source env o post info pre si ho hpost hrest hinfo
      by_cases hg : env.IsGVK p "" "v1" "ConfigMap" = true
      · have hn : ¬ si.ConfigMap.Name = env.GetName p := fun hn => hp1 ⟨hg, hn⟩
        rw [if_pos hg, if_neg hn]
        exact ih
      · rw [if_neg hg]
        exact ih

theorem getSetImageConfig_error_none (env : Env KubeObject RNode FieldSpec) :
    ∀ (items : List KubeObject) (si si1 : SetImage FieldSpec) (e : Option Error),
      getSetImageConfig env si items = .returned (si1, e) → e = none
  | [], si, si1, e, h => by
    simp only [getSetImageConfig, Outcome.returned.injEq, Prod.mk.injEq] at h
    exact h.2.symm
  | o :: items, si, si1, e, h => by
    simp only [getSetImageConfig] at h
    by_cases hg : env.IsGVK o "" "v1" "ConfigMap" = true
    · rw [if_pos hg] at h
      by_cases hn : si.ConfigMap.Name = env.GetName o
      · rw [if_pos hn] at h
        cases hd : env.GetOrDieSetImageInfo o {} with
        | none => rw [hd] at h; simp at h
        | some i =>
          rw [hd] at h
          exact getSetImageConfig_error_none env items _ si1 e h
      · rw [if_neg hn] at h
        exact getSetImageConfig_error_none env items si si1 e h
    · rw [if_neg hg] at h
      exact getSetImageConfig_error_none env items si si1 e h

/-- C10, as amended: `getSetImageConfig` never returns a non-nil error, and when `o` is
the last v1 ConfigMap of the items whose name equals `si.ConfigMap.Name` and `GetOrDie`
decodes the data of every such item, it returns nil and the rule is exactly the data of
`o` decoded into an empty rule: the namespace plays no part, earlier such items are
overridden and nothing of the former rule of `si` is kept. -/
theorem getSetImageConfig_last_wins (env : Env KubeObject RNode FieldSpec)
    (si : SetImage FieldSpec) (pre : List KubeObject) (o : KubeObject) (post : List KubeObject)
    (info : SetImageInfo)
    (ho : env.IsGVK o "" "v1" "ConfigMap" = true ∧ si.ConfigMap.Name = env.GetName o)
    (hpost : ∀ p ∈ post,
      ¬ (env.IsGVK p "" "v1" "ConfigMap" = true ∧ si.ConfigMap.Name = env.GetName p))
    (hpre : ∀ p ∈ pre, env.IsGVK p "" "v1" "ConfigMap" = true → si.ConfigMap.Name = env.GetName p →
      ∃ i, env.GetOrDieSetImageInfo p {} = some i)
    (hinfo : env.GetOrDieSetImageInfo o {} = some info) :
    getSetImageConfig env si (pre ++ o :: post) =
        .returned ({ ConfigMap := si.ConfigMap, SetImageInfo := info,
                     AdditionalImageFields := si.AdditionalImageFields,
                     setImageResults := si.setImageResults }, none) ∧
      ∀ (items : List KubeObject) (si0 si1 : SetImage FieldSpec) (e : Option Error),
        getSetImageConfig env si0 items = .returned (si1, e) → e = none := by
  refine ⟨?_, getSetImageConfig_error_none env⟩
  apply getSetImageConfig_last_source env o post info pre si
  · simp [isRuleSource, ho.1, ho.2]
  · intro p hp
    have h := hpost p hp
    simpa [isRuleSource] using h
  · intro p hp hs
    simp only [isRuleSource, Bool.and_eq_true, decide_eq_true_eq] at hs
    exact hpre p hp hs.1 hs.2
  · exact hinfo

/-- C10 at a concrete input: two ConfigMaps named `cm` in different namespaces; the rule
of the second one replaces an inline rule, registry included. -/
theorem getSetImageConfig_last_wins_witness :
    getSetImageConfig Sample.env
        ({ ConfigMap := ⟨"cm"⟩, SetImageInfo := Sample.nginxRule } : SetImage String)
        ([Sample.web, Sample.cm] ++ Sample.cmOther :: [Sample.db]) =
      .returned ({ ConfigMap := ⟨"cm"⟩, SetImageInfo := { Name := "postgres", NewTag := "16" },
                   AdditionalImageFields := [], setImageResults := [] }, none) :=
  (getSetImageConfig_last_wins Sample.env
    ({ ConfigMap := ⟨"cm"⟩, SetImageInfo := Sample.nginxRule } : SetImage String)
    [Sample.web, Sample.cm] Sample.cmOther [Sample.db] { Name := "postgres", NewTag := "16" }
    (by decide) (by decide)
    (by
      intro p hp _ _
      rcases List.mem_cons.mp hp with h | h
      · rw [h]; exact ⟨_, rfl⟩
      · rw [List.mem_singleton.mp h]; exact ⟨_, rfl⟩)
    rfl).1

/-- C10 as stated fails: with a ConfigMap named `cm` whose data cannot be decoded,
`getSetImageConfig` panics in `GetOrDie` instead of returning nil, although a later
ConfigMap `cm` holds a rule. -/
theorem getSetImageConfig_panics_counterexample :
    Sample.env.IsGVK Sample.cm "" "v1" "ConfigMap" = true ∧ Sample.env.GetName Sample.cm = "cm" ∧
      getSetImageConfig Sample.env ({ ConfigMap := ⟨"cm"⟩ } : SetImage String)
          [Sample.cmBad, Sample.cm] = .panicked :=
  ⟨rfl, rfl, rfl⟩

/-- C7: when the function config is neither a v1 ConfigMap nor a
`SetImageFromConfigMap`, `setImage` does not reach `Transform` and leaves the items
untouched, but it appends no result: it returns failure with the configuration error and
the resource list, `rl.Results` included, exactly as it was. -/
theorem setImage_unrecognised_config (env : Env KubeObject RNode FieldSpec)
    (enum : setImageResults → setImageResults) (rl : ResourceList KubeObject)
    (h1 : env.IsGVK rl.FunctionConfig "" "v1" "ConfigMap" = false)
    (h2 : env.IsGVK rl.FunctionConfig fnConfigGroup fnConfigVersion fnConfigKind = false) :
    setImage env enum rl =
      .returned (rl, false, some "`functionConfig` must be a `ConfigMap` or `SetImageFromConfigMap`") := by
  simp only [setImage, Config, h1, h2, Bool.false_eq_true, if_false, Bool.not_false, if_true]
  rfl

/-- C7 at a concrete input: a Deployment as function config. -/
theorem setImage_unrecognised_config_witness :
    setImage Sample.env id ⟨Sample.fnOther, [Sample.web, Sample.db], []⟩ =
      .returned (⟨Sample.fnOther, [Sample.web, Sample.db], []⟩, false,
        some "`functionConfig` must be a `ConfigMap` or `SetImageFromConfigMap`") :=
  setImage_unrecognised_config Sample.env id ⟨Sample.fnOther, [Sample.web, Sample.db], []⟩
    (by decide) (by decide)

theorem configAfterSwitch_no_source (env : Env KubeObject RNode FieldSpec)
    (si : SetImage FieldSpec) (rl : ResourceList KubeObject)
    (hno : ∀ o ∈ rl.Items, isRuleSource env si.ConfigMap.Name o = false)
    (hdef : env.defaultImageFields.2 = none) :
    configAfterSwitch env si rl =
      .returned ({ si with AdditionalImageFields :=
                    si.AdditionalImageFields ++ env.defaultImageFields.1 }, none, true) := by
  rcases hd : env.defaultImageFields with ⟨d, e⟩
  rw [hd] at hdef
  simp only at hdef
  subst hdef
  simp [configAfterSwitch, getSetImageConfig_no_source env rl.Items si hno, getDefaultImageFields, hd]

theorem setImage_of_empty_rule (env : Env KubeObject RNode FieldSpec)
    (enum : setImageResults → setImageResults) (rl : ResourceList KubeObject)
    (si : SetImage FieldSpec) (hC : Config env {} rl = .returned (si, none, true))
    (hName : si.SetImageInfo.Name = "") (hRec : si.setImageResults = []) :
    setImage env enum rl =
      .returned ({ rl with Results := rl.Results ++ [noImagesChanged] }, true, none) := by
  simp [setImage, hC, Transform, hName, SdkResults, hRec, mapLen]

/-- C8, as amended: when the function config is a v1 ConfigMap that decodes, or a
`SetImageFromConfigMap` that decodes to an inline rule with an empty name, when no v1
ConfigMap item has the configured name and the default field specs load, the rule that
reaches `Transform` has an empty name and the pass is a no-op: `setImage` succeeds, the
items are unchanged and the only result appended is "no images changed". -/
theorem setImage_no_source_noop (env : Env KubeObject RNode FieldSpec)
    (enum : setImageResults → setImageResults) (rl : ResourceList KubeObject)
    (name : String)
    (hcfg : (env.IsGVK rl.FunctionConfig "" "v1" "ConfigMap" = true ∧
          env.GetOrDieConfigMap rl.FunctionConfig {} = some ⟨name⟩) ∨
        (env.IsGVK rl.FunctionConfig "" "v1" "ConfigMap" = false ∧
          env.IsGVK rl.FunctionConfig fnConfigGroup fnConfigVersion fnConfigKind = true ∧
          ∃ x, env.AsOrDie rl.FunctionConfig ⟨{}, {}, []⟩ = some x ∧ x.ConfigMap.Name = name ∧
            x.SetImageInfo.Name = ""))
    (hno : ∀ o ∈ rl.Items,
      ¬ (env.IsGVK o "" "v1" "ConfigMap" = true ∧ name = env.GetName o))
    (hdef : env.defaultImageFields.2 = none) :
    setImage env enum rl =
      .returned ({ FunctionConfig := rl.FunctionConfig, Items := rl.Items,
                   Results := rl.Results ++
                     [{ Message := "no images changed", Severity := .Info, ResourceRef := none,
                        Field := none, File := none }] }, true, none) := by
  have hno1 : ∀ o ∈ rl.Items, isRuleSource env name o = false := by
    intro o ho
    have h := hno o ho
    simpa [isRuleSource] using h
  rcases hcfg with ⟨hg, hd⟩ | ⟨hg1, hg2, x, hx, hxn, hxe⟩
  · have hC : Config env ({} : SetImage FieldSpec) rl =
        .returned ({ ConfigMap := ⟨name⟩, AdditionalImageFields := [] ++ env.defaultImageFields.1 },
          none, true) := by
      simp only [Config, hg, if_true, hd]
      exact configAfterSwitch_no_source env { ConfigMap := ⟨name⟩ } rl hno1 hdef
    exact setImage_of_empty_rule env enum rl _ hC rfl rfl
  · have hC : Config env ({} : SetImage FieldSpec) rl =
        .returned ({ ConfigMap := x.ConfigMap, SetImageInfo := x.SetImageInfo,
                     AdditionalImageFields := x.AdditionalImageFields ++ env.defaultImageFields.1 },
          none, true) := by
      simp only [Config, hg1, hg2, if_true, Bool.false_eq_true, if_false, hx]
      exact configAfterSwitch_no_source env
        { ConfigMap := x.ConfigMap, SetImageInfo := x.SetImageInfo,
          AdditionalImageFields := x.AdditionalImageFields } rl (by rw [hxn]; exact hno1) hdef
    exact setImage_of_empty_rule env enum rl _ hC hxe rfl

/-- C8 at a concrete input: a ConfigMap function config naming `cm`, and no item named
`cm`. -/
theorem setImage_no_source_noop_witness :
    setImage Sample.env id ⟨Sample.fnConfigMap, [Sample.web, Sample.db], []⟩ =
      .returned (⟨Sample.fnConfigMap, [Sample.web, Sample.db],
        [{ Message := "no images changed", Severity := .Info, ResourceRef := none,
           Field := none, File := none }]⟩, true, none) :=
  setImage_no_source_noop Sample.env id ⟨Sample.fnConfigMap, [Sample.web, Sample.db], []⟩ "cm"
    (Or.inl ⟨by decide, rfl⟩) (by decide) rfl

/-- C8 as stated fails: with a recognised `SetImageFromConfigMap` function config that
carries an inline rule, and no ConfigMap item named `cm`, the inline rule reaches
`Transform`: the image of `web` is rewritten and the result is not "no images changed". -/
theorem setImage_inline_rule_counterexample :
    Sample.env.IsGVK Sample.fnInline fnConfigGroup fnConfigVersion fnConfigKind = true ∧
      (∀ o ∈ [Sample.web, Sample.db],
        ¬ (Sample.env.IsGVK o "" "v1" "ConfigMap" = true ∧ "cm" = Sample.env.GetName o)) ∧
      setImage Sample.env id ⟨Sample.fnInline, [Sample.web, Sample.db], []⟩ =
        .returned (⟨Sample.fnInline, [Sample.webNew, Sample.db],
          [{ Message := "set image from nginx:1.20.2 to nginx:1.21.6", Severity := .Info,
             ResourceRef := some ⟨"apps/v1", "Deployment", "web", "prod"⟩,
             Field := some ⟨"spec.image", "nginx:1.20.2", "nginx:1.21.6"⟩,
             File := some ⟨"web.yaml", 0⟩ }]⟩, true, none) ∧
      [Sample.webNew, Sample.db] ≠ [Sample.web, Sample.db] := by
  refine ⟨by decide, by decide, by decide, by decide⟩

end Configuration

end SetImageFn
